import Mathlib

/-
Verification of the RDMA scatter benchmark server
(src/examples/11_rdma_scatter/sw/src/server/main.cpp, the scatter variant
of the file).

The embedding models the server control loop as a pure trace semantics:
every call the control thread makes to the HIP device runtime or to the
Coyote transport is recorded as an Event, and runtime failures are driven
by an explicit FaultModel (which hip call returns a nonzero status).
A thrown std::runtime_error is modelled as an error value that aborts the
remaining straight-line code, exactly as an uncaught C++ exception does.

Constants N_LATENCY_REPS and N_RUNS_DEFAULT come from constants.hpp, which
is outside the repository; they are threaded through as parameters.
-/

/-- NUM_GPUS from the source (line 196): the number of device targets. -/
def NUM_GPUS : Nat := 4

/-- IS_CLIENT from the source (line 195): the server passes false to connSync. -/
def IS_CLIENT : Bool := false

/-- sizeof(int) on the target platform: mem is an int pointer, so the index
expression mem[i * 4096] denotes byte offset i * 4096 * 4. -/
def sizeofInt : Nat := 4

/-- The fixed chunk byte count used by the fan-out loop (line 246/249). -/
def CHUNK_BYTES : Nat := 4096

/-- Modulus of the 32-bit unsigned arithmetic used for curr_size in main. -/
def U32 : Nat := 2 ^ 32

/-- One asynchronous host-to-device copy, as issued by line 249:
hipMemcpyAsync(dest_buffers[i % 4], mem + i * 4096, 4096, ...).
dev is the target device ordinal, srcOff the HOST byte offset of the
source, dstOff the byte offset inside the device buffer, copyLen the byte
count. -/
structure Chunk where
  dev : Nat
  srcOff : Nat
  dstOff : Nat
  copyLen : Nat
  deriving DecidableEq

/-- The chunk the fan-out loop issues at iteration i (lines 246-249):
device i % 4, host byte offset i * 4096 * sizeof(int), device byte
offset 0, 4096 bytes. -/
def chunkOf (i : Nat) : Chunk :=
  ⟨i % NUM_GPUS, i * CHUNK_BYTES * sizeofInt, 0, CHUNK_BYTES⟩

/-- The list of copies issued by one fan-out invocation over a region of
len bytes: the loop at line 246 runs for i < sg.len / 4096 (integer,
truncating division on the unsigned sg.len). -/
def fanoutChunks (len : Nat) : List Chunk :=
  (List.range (len / CHUNK_BYTES)).map chunkOf

/-- Total number of bytes moved by one fan-out invocation. -/
def totalBytesCopied (len : Nat) : Nat :=
  ((fanoutChunks len).map (fun c => c.copyLen)).sum

/-- Effect of one copy on the per-device buffer contents. Every copy of
this program writes bytes [0, 4096) of its target buffer, so a later copy
to the same device completely overwrites an earlier one; the buffer state
is therefore the last chunk written to it (none if untouched). -/
def applyChunk (st : Nat → Option Chunk) (c : Chunk) : Nat → Option Chunk :=
  fun d => if d = c.dev then some c else st d

/-- Per-device buffer contents after one fan-out invocation over len
bytes, starting from untouched buffers. -/
def devStateAfter (len : Nat) : Nat → Option Chunk :=
  (fanoutChunks len).foldl applyChunk (fun _ => none)

/-- Observable actions of the control thread, in program order. -/
inductive Event where
  | clearCompleted : Event
  | connSync : Bool → Event
  | quotaWait : Nat → Event
  | setDevice : Nat → Event
  | streamCreate : Nat → Event
  | eventCreate : Nat → Event
  | copyAsync : Chunk → Bool → Event
  | deviceSync : Nat → Event
  | remoteWrite : Nat → Event
  | streamDestroy : Nat → Event
  | eventDestroy : Nat → Event
  | hipFree : Nat → Event
  deriving DecidableEq

/-- The distinct std::runtime_error throw sites of the program. -/
inductive BenchError where
  | deviceSelectionError : BenchError
  | streamCreateError : BenchError
  | eventCreateError : BenchError
  | syncError : BenchError
  deriving DecidableEq

/-- Which HIP runtime calls return a nonzero status.  selFail d: a
hipSetDevice(d) call fails; streamFail / eventFail d: stream or event
creation on device d fails; copyEnqueueFail i: the hipMemcpyAsync for
chunk index i cannot be enqueued; syncFail d: hipDeviceSynchronize on
device d fails. -/
structure FaultModel where
  selFail : Nat → Bool
  streamFail : Nat → Bool
  eventFail : Nat → Bool
  copyEnqueueFail : Nat → Bool
  syncFail : Nat → Bool

/-- The fault-free runtime. -/
def noFault : FaultModel :=
  ⟨fun _ => false, fun _ => false, fun _ => false, fun _ => false, fun _ => false⟩

/-- Fault injection: device 2 cannot be made current; everything else works. -/
def faultSel2 : FaultModel :=
  ⟨fun d => decide (d = 2), fun _ => false, fun _ => false, fun _ => false, fun _ => false⟩

/-- Fault injection: every asynchronous copy fails to enqueue; everything
else works. -/
def faultCopyAll : FaultModel :=
  ⟨fun _ => false, fun _ => false, fun _ => false, fun _ => true, fun _ => false⟩

/-- Result of a straight-line code fragment: the events it performed, and
the exception (if any) that aborted it. -/
structure BenchResult where
  trace : List Event
  err : Option BenchError
  deriving DecidableEq

/-- Sequential composition: if the first fragment throws, the second never
runs (its events are not performed). -/
def BenchResult.andThen (a b : BenchResult) : BenchResult :=
  match a.err with
  | some e => ⟨a.trace, some e⟩
  | none => ⟨a.trace ++ b.trace, b.err⟩

/-- A loop over the given index list, aborted by the first throwing body. -/
def runSteps (f : Nat → BenchResult) : List Nat → BenchResult
  | [] => ⟨[], none⟩
  | i :: rest => (f i).andThen (runSteps f rest)

/-- One iteration of the per-device setup loop (lines 224-229):
hipSetDevice(i), hipStreamCreate, hipEventCreate, each checked and
throwing on failure. -/
def setupStep (fm : FaultModel) (d : Nat) : BenchResult :=
  if fm.selFail d then ⟨[.setDevice d], some .deviceSelectionError⟩
  else if fm.streamFail d then ⟨[.setDevice d, .streamCreate d], some .streamCreateError⟩
  else if fm.eventFail d then
    ⟨[.setDevice d, .streamCreate d, .eventCreate d], some .eventCreateError⟩
  else ⟨[.setDevice d, .streamCreate d, .eventCreate d], none⟩

/-- One iteration of the fan-out loop (lines 246-255): hipSetDevice(i % 4)
is checked and throws on failure; the hipMemcpyAsync return status is
discarded by the source, so a failed enqueue is recorded in the event but
raises nothing. -/
def fanoutStep (fm : FaultModel) (i : Nat) : BenchResult :=
  if fm.selFail (i % NUM_GPUS) then ⟨[.setDevice (i % NUM_GPUS)], some .deviceSelectionError⟩
  else ⟨[.setDevice (i % NUM_GPUS), .copyAsync (chunkOf i) (!fm.copyEnqueueFail i)], none⟩

/-- One iteration of the synchronization loop (lines 284-292):
hipSetDevice(i) then hipDeviceSynchronize, both checked. -/
def syncStep (fm : FaultModel) (d : Nat) : BenchResult :=
  if fm.selFail d then ⟨[.setDevice d], some .deviceSelectionError⟩
  else if fm.syncFail d then ⟨[.setDevice d, .deviceSync d], some .syncError⟩
  else ⟨[.setDevice d, .deviceSync d], none⟩

/-- One iteration of the remote-write issue loop (lines 296-298): the
invoke call is unchecked. -/
def writeStep (len : Nat) (_ : Nat) : BenchResult :=
  ⟨[.remoteWrite len], none⟩

/-- One iteration of the stream/event teardown loop (lines 306-310). -/
def destroyStep (d : Nat) : BenchResult :=
  ⟨[.streamDestroy d, .eventDestroy d], none⟩

/-- The fan-out phase of a write round: the loop at lines 246-255. -/
def fanoutPhase (fm : FaultModel) (len : Nat) : BenchResult :=
  runSteps (fanoutStep fm) (List.range (len / CHUNK_BYTES))

/-- The device synchronization barrier of a write round: lines 284-292. -/
def syncPhase (fm : FaultModel) : BenchResult :=
  runSteps (syncStep fm) (List.range NUM_GPUS)

/-- The remote-write issue phase of a write round: lines 296-298. -/
def issuePhase (len transfers : Nat) : BenchResult :=
  runSteps (writeStep len) (List.range transfers)

/-- Events performed by every round before the mode branch, plus the
write-mode completion-quota busy-wait (lines 233-239): clearCompleted,
connSync(IS_CLIENT), then spinning on checkCompleted(LOCAL_WRITE) until it
equals the transfer quota.  The spin loop has no failure path; quotaWait
records that it finished with the quota reached. -/
def roundHeader (transfers : Nat) : BenchResult :=
  ⟨[.clearCompleted, .connSync IS_CLIENT, .quotaWait transfers], none⟩

/-- One write-mode round of run_bench (lines 231-298): quota wait, fan-out,
per-device synchronization, remote-write issue, strictly in that order,
aborted by the first throw. -/
def writeRound (fm : FaultModel) (len transfers : Nat) : BenchResult :=
  (roundHeader transfers).andThen
    ((fanoutPhase fm len).andThen ((syncPhase fm).andThen (issuePhase len transfers)))

/-- One read-mode round: the server only clears completions and reaches the
barrier (lines 233-234, 300-302). -/
def readRound : BenchResult :=
  ⟨[.clearCompleted, .connSync IS_CLIENT], none⟩

/-- One round of run_bench, by mode. -/
def benchRound (fm : FaultModel) (len transfers : Nat) (op : Bool) : BenchResult :=
  if op then writeRound fm len transfers else readRound

/-- run_bench (lines 211-318): per-device stream/event setup, n_runs
rounds, teardown.  The host-buffer initialization loop (lines 217-219)
touches only host memory and performs no runtime call, so it contributes
no event. -/
def run_bench (fm : FaultModel) (len transfers nRuns : Nat) (op : Bool) : BenchResult :=
  (runSteps (setupStep fm) (List.range NUM_GPUS)).andThen
    ((runSteps (fun _ => benchRound fm len transfers op) (List.range nRuns)).andThen
      (runSteps destroyStep (List.range NUM_GPUS)))

/-- Trace of one write-mode round. -/
def roundTrace (fm : FaultModel) (len transfers : Nat) : List Event :=
  (writeRound fm len transfers).trace

/-- Rank of an event in the round phase order: 1 quota wait, 2 fan-out
copy, 3 device synchronization, 4 remote write; 0 for bookkeeping events
(barrier, completion clearing, device selection, stream/event management). -/
def phaseRank : Event → Nat
  | .quotaWait _ => 1
  | .copyAsync _ _ => 2
  | .deviceSync _ => 3
  | .remoteWrite _ => 4
  | _ => 0

/-- Recognizer for remote-write submissions. -/
def isWrite : Event → Bool
  | .remoteWrite _ => true
  | _ => false

/-- Recognizer for the per-round completion reset; each round performs
exactly one clearCompleted, so counting them counts rounds. -/
def isClear : Event → Bool
  | .clearCompleted => true
  | _ => false

/-- Number of benchmark rounds recorded in a trace. -/
def countRounds (tr : List Event) : Nat :=
  tr.countP isClear

/-- The sweep loop of main (lines 387-393), fuel-bounded: while
curr_size <= max_size the body runs and curr_size is doubled in unsigned
32-bit arithmetic.  Returns the list of sizes visited, or none if the
fuel is exhausted before the loop exits (in particular on a diverging
sweep). -/
def sweepGo : Nat → Nat → Nat → Option (List Nat)
  | 0, _, _ => none
  | fuel + 1, curr, mx =>
    if curr ≤ mx then
      match sweepGo fuel ((curr * 2) % U32) mx with
      | some rest => some (curr :: rest)
      | none => none
    else some []

/-- The sweep loop terminates on (mn, mx): some fuel suffices. -/
def sweepTerminatesOn (mn mx : Nat) : Prop :=
  ∃ fuel, (sweepGo fuel mn mx).isSome = true

/-- The size sequence of a non-overflowing sweep: doubling from curr while
curr ≤ mx, for positive curr.  Coincides with the loop of main whenever
0 < curr and mx < 2^31 (so that the unsigned doubling never wraps). -/
def sweepList (curr mx : Nat) : List Nat :=
  if h : 0 < curr ∧ curr ≤ mx then curr :: sweepList (curr * 2) mx else []
termination_by mx + 1 - curr
decreasing_by omega

/-- One invocation of run_bench made by the sweep loop of main: the
throughput call (line 390) is commented out in the source, so each size
gets exactly one call, with transfers = N_LATENCY_REPS and
n_runs + 10 repetitions (line 391). -/
structure BenchCall where
  size : Nat
  transfers : Nat
  nRuns : Nat
  deriving DecidableEq

/-- The run_bench invocations of the sweep loop (lines 387-393),
fuel-bounded; nLat is the external constant N_LATENCY_REPS and nRuns the
value of the --runs option. -/
def mainCallsGo (nLat nRuns mx : Nat) : Nat → Nat → Option (List BenchCall)
  | 0, _ => none
  | fuel + 1, curr =>
    if curr ≤ mx then
      match mainCallsGo nLat nRuns mx fuel ((curr * 2) % U32) with
      | some rest => some (⟨curr, nLat, nRuns + 10⟩ :: rest)
      | none => none
    else some []

/-- One iteration of the teardown sequence of main (lines 396-403):
hipSetDevice(d) checked and throwing, then hipFree (unchecked). -/
def freeStep (fm : FaultModel) (d : Nat) : BenchResult :=
  if fm.selFail d then ⟨[.setDevice d], some .deviceSelectionError⟩
  else ⟨[.setDevice d, .hipFree d], none⟩

/-- The tail of main after the sweep loop (lines 396-405): free the four
device buffers, then the final peer synchronization. -/
def finalPhase (fm : FaultModel) : BenchResult :=
  (runSteps (freeStep fm) (List.range NUM_GPUS)).andThen ⟨[.connSync IS_CLIENT], none⟩

/-- Outcome of the modelled part of main: the events performed and the
exit code (some 0 = EXIT_SUCCESS; none = terminated by an uncaught
exception). -/
structure MainResult where
  trace : List Event
  exitCode : Option Nat
  deriving DecidableEq

/-- The sweep loop of main with its run_bench calls (lines 387-393),
fuel-bounded.  An exception thrown by run_bench propagates and ends the
sweep. -/
def mainLoop (fm : FaultModel) (nLat nRuns mx : Nat) (op : Bool) : Nat → Nat → Option BenchResult
  | 0, _ => none
  | fuel + 1, curr =>
    if curr ≤ mx then
      match (run_bench fm curr nLat (nRuns + 10) op).err with
      | some e => some ⟨(run_bench fm curr nLat (nRuns + 10) op).trace, some e⟩
      | none =>
        match mainLoop fm nLat nRuns mx op fuel ((curr * 2) % U32) with
        | some rest => some ⟨(run_bench fm curr nLat (nRuns + 10) op).trace ++ rest.trace, rest.err⟩
        | none => none
    else some ⟨[], none⟩

/-- main from the sweep loop onward (lines 387-407): the sweep, then the
teardown and the final connSync, then EXIT_SUCCESS.  An uncaught exception
anywhere yields an abnormal exit (exitCode = none). -/
def mainRun (fm : FaultModel) (nLat nRuns mn mx : Nat) (op : Bool) (fuel : Nat) :
    Option MainResult :=
  match mainLoop fm nLat nRuns mx op fuel mn with
  | none => none
  | some r =>
    match r.err with
    | some _ => some ⟨r.trace, none⟩
    | none =>
      match (finalPhase fm).err with
      | some _ => some ⟨r.trace ++ (finalPhase fm).trace, none⟩
      | none => some ⟨r.trace ++ (finalPhase fm).trace, some 0⟩

/-! Helper lemmas about the fan-out chunk list. -/

lemma fanoutChunks_length (len : Nat) : (fanoutChunks len).length = len / CHUNK_BYTES := by
  simp [fanoutChunks]

lemma fanoutChunks_get (len i : Nat) (h : i < (fanoutChunks len).length) :
    (fanoutChunks len).get ⟨i, h⟩ = chunkOf i := by
  simp [fanoutChunks, List.get_eq_getElem]

lemma chunkOf_eq (i : Nat) : chunkOf i = ⟨i % 4, i * 16384, 0, 4096⟩ := by
  simp [chunkOf, NUM_GPUS, CHUNK_BYTES, sizeofInt, Nat.mul_assoc]

lemma sum_map_copyLen (n : Nat) :
    (((List.range n).map chunkOf).map (fun c => c.copyLen)).sum = CHUNK_BYTES * n := by
  induction n with
  | zero => simp
  | succ n ih =>
    rw [List.range_succ, List.map_append, List.map_append, List.sum_append, ih]
    simp [chunkOf]
    ring

/-- C1 (amended): one fan-out invocation over a region of len bytes moves
exactly CHUNK_BYTES * (len / CHUNK_BYTES) bytes in total across the four
devices; this is at most len, with equality exactly when CHUNK_BYTES
divides len — so in general not every byte of the region is copied. -/
theorem c1_total_bytes_copied (len : Nat) :
    totalBytesCopied len = CHUNK_BYTES * (len / CHUNK_BYTES)
      ∧ totalBytesCopied len ≤ len
      ∧ (totalBytesCopied len = len ↔ CHUNK_BYTES ∣ len) := by
  have h1 : totalBytesCopied len = CHUNK_BYTES * (len / CHUNK_BYTES) :=
    sum_map_copyLen (len / CHUNK_BYTES)
  have h2 : CHUNK_BYTES * (len / CHUNK_BYTES) ≤ len := by
    rw [Nat.mul_comm]
    exact Nat.div_mul_le_self len CHUNK_BYTES
  refine ⟨h1, by omega, ?_⟩
  constructor
  · intro h
    exact ⟨len / CHUNK_BYTES, by omega⟩
  · intro h
    rw [h1, Nat.mul_div_cancel' h]

/-- C1 counterexample: for L = 10000 the fan-out moves 8192 bytes, not
10000, refuting the claim that the total equals exactly L. -/
theorem c1_total_bytes_cex :
    totalBytesCopied 10000 = 8192 ∧ ¬ (totalBytesCopied 10000 = 10000) := by
  decide

/-- C2 (amended): the fan-out issues exactly floor(L / 4096) chunk copies
(truncating division, so there is no short final chunk), chunk i going to
device i mod 4 with source byte offset i * 16384 and 4096 bytes; in
particular for L = 10000 it issues 2 chunks, to devices 0 and 1 only, and
devices 2 and 3 receive nothing. -/
theorem c2_chunking :
    (∀ len : Nat, (fanoutChunks len).length = len / CHUNK_BYTES)
      ∧ (∀ (len i : Nat) (h : i < (fanoutChunks len).length),
          (fanoutChunks len).get ⟨i, h⟩ = ⟨i % 4, i * 16384, 0, 4096⟩)
      ∧ fanoutChunks 10000 = [⟨0, 0, 0, 4096⟩, ⟨1, 16384, 0, 4096⟩] := by
  refine ⟨fanoutChunks_length, ?_, by decide⟩
  intro len i h
  rw [fanoutChunks_get, chunkOf_eq]

/-- C2 witness: the second chunk of the L = 10000 fan-out. -/
theorem c2_chunking_witness :
    1 < (fanoutChunks 10000).length
      ∧ (fanoutChunks 10000).get ⟨1, by decide⟩ = ⟨1 % 4, 1 * 16384, 0, 4096⟩ :=
  ⟨by decide, c2_chunking.2.1 10000 1 (by decide)⟩

/-- C2 counterexample: for L = 10000 the fan-out issues 2 chunks, not the
claimed ceil(10000 / 4096) = 3. -/
theorem c2_chunk_count_cex :
    (fanoutChunks 10000).length = 2
      ∧ (10000 + CHUNK_BYTES - 1) / CHUNK_BYTES = 3
      ∧ ¬ ((fanoutChunks 10000).length = (10000 + CHUNK_BYTES - 1) / CHUNK_BYTES) := by
  decide

lemma devState_aux (n : Nat) :
    ((List.range n).map chunkOf).foldl applyChunk (fun _ => none)
      = fun d => (((List.range n).filter (fun i => decide (i % NUM_GPUS = d))).getLast?).map
          chunkOf := by
  induction n with
  | zero => funext d; simp
  | succ n ih =>
    funext d
    rw [List.range_succ, List.map_append, List.foldl_append, ih]
    by_cases hd : n % NUM_GPUS = d
    · simp [applyChunk, List.filter_append, hd, chunkOf, List.getLast?_concat]
    · simp [applyChunk, List.filter_append, hd, chunkOf]
      intro hcon
      exact absurd hcon.symm hd

/-- C10 (confirmed): chunk i of a fan-out is sourced from host byte offset
i * 16384 (element index i * 4096 of the int array, not byte offset
i * 4096), targets byte offset 0 of device buffer i mod 4, and because
every copy lands at offset 0, after the fan-out a device buffer holds at
most the 4096 bytes of the last chunk routed to it. -/
theorem c10_chunk_addressing :
    (∀ (len i : Nat) (h : i < (fanoutChunks len).length),
        ((fanoutChunks len).get ⟨i, h⟩).srcOff = i * 16384
          ∧ ((fanoutChunks len).get ⟨i, h⟩).dstOff = 0
          ∧ ((fanoutChunks len).get ⟨i, h⟩).dev = i % 4
          ∧ (1 ≤ i → ((fanoutChunks len).get ⟨i, h⟩).srcOff ≠ i * 4096))
      ∧ (∀ len d : Nat, devStateAfter len d
          = (((List.range (len / CHUNK_BYTES)).filter
              (fun i => decide (i % NUM_GPUS = d))).getLast?).map chunkOf) := by
  constructor
  · intro len i h
    rw [fanoutChunks_get, chunkOf_eq]
    refine ⟨rfl, rfl, rfl, ?_⟩
    intro hi
    simp only []
    omega
  · intro len d
    have := congrFun (devState_aux (len / CHUNK_BYTES)) d
    simpa [devStateAfter, fanoutChunks] using this

/-- C10 witness: the chunk at index 5 of a 40960-byte fan-out, and the
final contents of device buffer 2 (the last chunk routed there is chunk 6). -/
theorem c10_chunk_addressing_witness :
    5 < (fanoutChunks 40960).length
      ∧ ((fanoutChunks 40960).get ⟨5, by decide⟩).srcOff = 5 * 16384
      ∧ devStateAfter 40960 2
          = (((List.range (40960 / CHUNK_BYTES)).filter
              (fun i => decide (i % NUM_GPUS = 2))).getLast?).map chunkOf :=
  ⟨by decide, (c10_chunk_addressing.1 40960 5 (by decide)).1, c10_chunk_addressing.2 40960 2⟩

/-! Helper lemmas about the size sweep. -/

lemma sweepList_unfold (curr mx : Nat) :
    sweepList curr mx
      = if 0 < curr ∧ curr ≤ mx then curr :: sweepList (curr * 2) mx else [] := by
  rw [sweepList]
  exact dite_eq_ite

lemma sweepList_mem_iff (mx : Nat) :
    ∀ n curr, mx + 1 - curr ≤ n → 0 < curr →
      ∀ s, (s ∈ sweepList curr mx ↔ ∃ k, s = curr * 2 ^ k ∧ s ≤ mx) := by
  intro n
  induction n with
  | zero =>
    intro curr hn hc s
    rw [sweepList_unfold, if_neg (by omega)]
    simp only [List.not_mem_nil, false_iff]
    rintro ⟨k, rfl, hle⟩
    have h1 : curr ≤ curr * 2 ^ k :=
      Nat.le_mul_of_pos_right _ (pow_pos (by omega) k)
    omega
  | succ n ih =>
    intro curr hn hc s
    by_cases hcm : curr ≤ mx
    · rw [sweepList_unfold, if_pos ⟨hc, hcm⟩]
      have ih2 := ih (curr * 2) (by omega) (by omega) s
      constructor
      · intro hs
        rcases List.mem_cons.mp hs with rfl | hs
        · exact ⟨0, by simp, hcm⟩
        · rcases ih2.mp hs with ⟨k, rfl, hle⟩
          exact ⟨k + 1, by ring, hle⟩
      · rintro ⟨k, rfl, hle⟩
        cases k with
        | zero => simp [List.mem_cons]
        | succ k =>
          exact List.mem_cons.mpr (Or.inr (ih2.mpr ⟨k, by ring, hle⟩))
    · rw [sweepList_unfold, if_neg (by omega)]
      simp only [List.not_mem_nil, false_iff]
      rintro ⟨k, rfl, hle⟩
      have h1 : curr ≤ curr * 2 ^ k :=
        Nat.le_mul_of_pos_right _ (pow_pos (by omega) k)
      omega

lemma sweepList_chain (mx : Nat) :
    ∀ n curr, mx + 1 - curr ≤ n → 0 < curr →
      List.Chain' (fun a b => a < b) (sweepList curr mx) := by
  intro n
  induction n with
  | zero =>
    intro curr hn hc
    rw [sweepList_unfold, if_neg (by omega)]
    exact List.chain'_nil
  | succ n ih =>
    intro curr hn hc
    by_cases hcm : curr ≤ mx
    · rw [sweepList_unfold, if_pos ⟨hc, hcm⟩]
      refine List.chain'_cons'.mpr ⟨?_, ih (curr * 2) (by omega) (by omega)⟩
      intro b hb
      have hmem : b ∈ sweepList (curr * 2) mx := List.mem_of_mem_head? hb
      rcases (sweepList_mem_iff mx n (curr * 2) (by omega) (by omega) b).mp hmem with
        ⟨k, rfl, _⟩
      have h1 : curr * 2 ≤ curr * 2 * 2 ^ k :=
        Nat.le_mul_of_pos_right _ (pow_pos (by omega) k)
      omega
    · rw [sweepList_unfold, if_neg (by omega)]
      exact List.chain'_nil

lemma sweepList_nodup (mn mx : Nat) (h : 0 < mn) : (sweepList mn mx).Nodup := by
  have hch := sweepList_chain mx (mx + 1) mn (by omega) h
  have hp : List.Pairwise (fun a b : Nat => a < b) (sweepList mn mx) :=
    List.chain'_iff_pairwise.mp hch
  exact hp.imp Nat.ne_of_lt

lemma sweepGo_spec (mx : Nat) (hmx : mx < 2 ^ 31) :
    ∀ n curr, mx + 1 - curr ≤ n → 0 < curr →
      ∃ fuel, sweepGo fuel curr mx = some (sweepList curr mx) := by
  intro n
  induction n with
  | zero =>
    intro curr hn hc
    refine ⟨1, ?_⟩
    rw [sweepList_unfold, if_neg (by omega)]
    have hgt : ¬ curr ≤ mx := by omega
    simp [sweepGo, hgt]
  | succ n ih =>
    intro curr hn hc
    by_cases hcm : curr ≤ mx
    · obtain ⟨fuel, hf⟩ := ih (curr * 2) (by omega) (by omega)
      refine ⟨fuel + 1, ?_⟩
      have hmod : (curr * 2) % U32 = curr * 2 := by
        apply Nat.mod_eq_of_lt
        have : curr * 2 < 2 ^ 32 := by
          have : curr ≤ mx := hcm
          have h31 : (2 : Nat) ^ 31 * 2 = 2 ^ 32 := by norm_num
          omega
        simpa [U32] using this
      rw [sweepList_unfold, if_pos ⟨hc, hcm⟩]
      simp [sweepGo, hcm, hmod, hf]
    · refine ⟨1, ?_⟩
      rw [sweepList_unfold, if_neg (by omega)]
      simp [sweepGo, hcm]

lemma mainCallsGo_spec (nLat nRuns mx : Nat) (hmx : mx < 2 ^ 31) :
    ∀ n curr, mx + 1 - curr ≤ n → 0 < curr →
      ∃ fuel, mainCallsGo nLat nRuns mx fuel curr
        = some ((sweepList curr mx).map (fun s => ⟨s, nLat, nRuns + 10⟩)) := by
  intro n
  induction n with
  | zero =>
    intro curr hn hc
    refine ⟨1, ?_⟩
    rw [sweepList_unfold, if_neg (by omega)]
    have hgt : ¬ curr ≤ mx := by omega
    simp [mainCallsGo, hgt]
  | succ n ih =>
    intro curr hn hc
    by_cases hcm : curr ≤ mx
    · obtain ⟨fuel, hf⟩ := ih (curr * 2) (by omega) (by omega)
      refine ⟨fuel + 1, ?_⟩
      have hmod : (curr * 2) % U32 = curr * 2 := by
        apply Nat.mod_eq_of_lt
        have : curr * 2 < 2 ^ 32 := by
          have h31 : (2 : Nat) ^ 31 * 2 = 2 ^ 32 := by norm_num
          omega
        simpa [U32] using this
      rw [sweepList_unfold, if_pos ⟨hc, hcm⟩]
      simp [mainCallsGo, hcm, hmod, hf]
    · refine ⟨1, ?_⟩
      rw [sweepList_unfold, if_neg (by omega)]
      simp [mainCallsGo, hcm]

lemma sweepGo_zero_none (mx : Nat) : ∀ fuel, sweepGo fuel 0 mx = none := by
  intro fuel
  induction fuel with
  | zero => rfl
  | succ n ih => simp [sweepGo, ih]

/-- C8 (amended): the sweep terminates whenever min_size is at least 1 and
max_size is below 2^31 (so the unsigned doubling cannot wrap to 0);
without these bounds the loop can run forever. -/
theorem c8_sweep_terminates (mn mx : Nat) (h1 : 1 ≤ mn) (h2 : mx < 2 ^ 31) :
    sweepTerminatesOn mn mx := by
  obtain ⟨fuel, hf⟩ := sweepGo_spec mx h2 (mx + 1) mn (by omega) (by omega)
  exact ⟨fuel, by rw [hf]; rfl⟩

/-- C8 witness: the sweep from 1 up to 4 terminates. -/
theorem c8_sweep_terminates_witness :
    1 ≤ 1 ∧ 4 < 2 ^ 31 ∧ sweepTerminatesOn 1 4 :=
  ⟨by decide, by decide, c8_sweep_terminates 1 4 (by decide) (by decide)⟩

/-- C8 counterexample: with min_size = 0 (claim says EVERY pair of unsigned
integers) the loop condition 0 <= max_size always holds and doubling keeps
curr_size at 0, so no amount of fuel finishes the sweep: it diverges. -/
theorem c8_nontermination_cex : ¬ sweepTerminatesOn 0 0 := by
  rintro ⟨fuel, h⟩
  rw [sweepGo_zero_none 0 fuel] at h
  simp at h

/-- C3 (amended): for 1 ≤ min_size and max_size < 2^31 the sweep loop of
main visits exactly the sizes min_size * 2^k that are ≤ max_size, in
strictly increasing order, and invokes run_bench exactly ONCE per size
(the throughput invocation is commented out in the source), always with
the latency repetition constant and n_runs + 10 repetitions. -/
theorem c3_sweep_calls (nLat nRuns mn mx : Nat) (h1 : 1 ≤ mn) (h2 : mx < 2 ^ 31) :
    (∃ fuel, mainCallsGo nLat nRuns mx fuel mn
        = some ((sweepList mn mx).map (fun s => ⟨s, nLat, nRuns + 10⟩)))
      ∧ List.Chain' (fun a b => a < b) (sweepList mn mx)
      ∧ (∀ s, s ∈ sweepList mn mx ↔ ∃ k, s = mn * 2 ^ k ∧ s ≤ mx)
      ∧ (∀ s, s ∈ sweepList mn mx → (sweepList mn mx).count s = 1) :=
  ⟨mainCallsGo_spec nLat nRuns mx h2 (mx + 1) mn (by omega) (by omega),
    sweepList_chain mx (mx + 1) mn (by omega) (by omega),
    fun s => sweepList_mem_iff mx (mx + 1) mn (by omega) (by omega) s,
    fun s hs => List.count_eq_one_of_mem (sweepList_nodup mn mx (by omega)) hs⟩

/-- C3 witness: the sweep 64..256 with latency constant 7 and 3 runs. -/
theorem c3_sweep_calls_witness :
    1 ≤ 64 ∧ 256 < 2 ^ 31
      ∧ ((∃ fuel, mainCallsGo 7 3 256 fuel 64
          = some ((sweepList 64 256).map (fun s => ⟨s, 7, 3 + 10⟩)))
        ∧ List.Chain' (fun a b => a < b) (sweepList 64 256)
        ∧ (∀ s, s ∈ sweepList 64 256 ↔ ∃ k, s = 64 * 2 ^ k ∧ s ≤ 256)
        ∧ (∀ s, s ∈ sweepList 64 256 → (sweepList 64 256).count s = 1)) :=
  ⟨by decide, by decide, c3_sweep_calls 7 3 64 256 (by decide) (by decide)⟩

/-- C3 counterexample: for min_size = 64, max_size = 256 the sweep makes
exactly one run_bench invocation per size (three in total), not the two
per size the claim demands. -/
theorem c3_calls_per_size_cex :
    ((mainCallsGo 0 5 256 32 64).getD []).length = 3
      ∧ ((mainCallsGo 0 5 256 32 64).getD []).countP (fun c => decide (c.size = 64)) = 1
      ∧ ¬ (((mainCallsGo 0 5 256 32 64).getD []).countP (fun c => decide (c.size = 64)) = 2) := by
  decide

/-! Helper lemmas about sequential composition and loops of the trace
semantics. -/

lemma andThen_trace_of_some {a b : BenchResult} {e : BenchError} (h : a.err = some e) :
    (a.andThen b).trace = a.trace := by
  simp [BenchResult.andThen, h]

lemma andThen_err_of_some {a b : BenchResult} {e : BenchError} (h : a.err = some e) :
    (a.andThen b).err = some e := by
  simp [BenchResult.andThen, h]

lemma andThen_trace_of_none {a b : BenchResult} (h : a.err = none) :
    (a.andThen b).trace = a.trace ++ b.trace := by
  simp [BenchResult.andThen, h]

lemma andThen_err_of_none {a b : BenchResult} (h : a.err = none) :
    (a.andThen b).err = b.err := by
  simp [BenchResult.andThen, h]

lemma mem_runSteps_trace {f : Nat → BenchResult} :
    ∀ {l : List Nat} {e : Event}, e ∈ (runSteps f l).trace → ∃ i ∈ l, e ∈ (f i).trace := by
  intro l
  induction l with
  | nil => intro e h; simp [runSteps] at h
  | cons i rest ih =>
    intro e h
    simp only [runSteps] at h
    cases he : (f i).err with
    | some er =>
      rw [andThen_trace_of_some he] at h
      exact ⟨i, List.mem_cons_self i rest, h⟩
    | none =>
      rw [andThen_trace_of_none he] at h
      rcases List.mem_append.mp h with h1 | h2
      · exact ⟨i, List.mem_cons_self i rest, h1⟩
      · obtain ⟨j, hj, hje⟩ := ih h2
        exact ⟨j, List.mem_cons_of_mem i hj, hje⟩

lemma runSteps_err_none {f : Nat → BenchResult} :
    ∀ {l : List Nat}, (runSteps f l).err = none ↔ ∀ i ∈ l, (f i).err = none := by
  intro l
  induction l with
  | nil => simp [runSteps]
  | cons i rest ih =>
    simp only [runSteps]
    cases he : (f i).err with
    | some er =>
      rw [andThen_err_of_some he]
      simp only [List.mem_cons]
      constructor
      · intro h; exact absurd h (by simp)
      · intro h
        have := h i (Or.inl rfl)
        rw [he] at this
        exact absurd this (by simp)
    | none =>
      rw [andThen_err_of_none he]
      rw [ih]
      constructor
      · intro h j hj
        rcases List.mem_cons.mp hj with rfl | hj2
        · exact he
        · exact h j hj2
      · intro h j hj
        exact h j (List.mem_cons_of_mem i hj)

lemma runSteps_trace_of_none {f : Nat → BenchResult} :
    ∀ {l : List Nat}, (∀ i ∈ l, (f i).err = none) →
      (runSteps f l).trace = (l.map (fun i => (f i).trace)).flatten := by
  intro l
  induction l with
  | nil => intro _; simp [runSteps]
  | cons i rest ih =>
    intro h
    simp only [runSteps]
    rw [andThen_trace_of_none (h i (List.mem_cons_self i rest))]
    rw [ih (fun j hj => h j (List.mem_cons_of_mem i hj))]
    simp

lemma runSteps_err_mem {f : Nat → BenchResult} :
    ∀ {l : List Nat} {e : BenchError},
      (runSteps f l).err = some e → ∃ i ∈ l, (f i).err = some e := by
  intro l
  induction l with
  | nil => intro e h; simp [runSteps] at h
  | cons i rest ih =>
    intro e h
    simp only [runSteps] at h
    cases he : (f i).err with
    | some er =>
      rw [andThen_err_of_some he] at h
      cases h
      exact ⟨i, List.mem_cons_self i rest, he⟩
    | none =>
      rw [andThen_err_of_none he] at h
      obtain ⟨j, hj, hje⟩ := ih h
      exact ⟨j, List.mem_cons_of_mem i hj, hje⟩

/-! Phase-rank facts about the events each loop of a write round emits. -/

lemma phaseRank_le_four (e : Event) : phaseRank e ≤ 4 := by
  cases e <;> simp [phaseRank]

lemma isWrite_iff_rank (e : Event) : isWrite e = true ↔ phaseRank e = 4 := by
  cases e <;> simp [isWrite, phaseRank]

lemma roundHeader_rank (t : Nat) : ∀ e ∈ (roundHeader t).trace, phaseRank e ≤ 1 := by
  intro e he
  simp [roundHeader] at he
  rcases he with rfl | rfl | rfl <;> simp [phaseRank]

lemma fanoutStep_rank (fm : FaultModel) (i : Nat) :
    ∀ e ∈ (fanoutStep fm i).trace, phaseRank e = 0 ∨ phaseRank e = 2 := by
  intro e he
  by_cases h : fm.selFail (i % NUM_GPUS) <;> simp [fanoutStep, h] at he
  · subst he; simp [phaseRank]
  · rcases he with rfl | rfl <;> simp [phaseRank]

lemma syncStep_rank (fm : FaultModel) (d : Nat) :
    ∀ e ∈ (syncStep fm d).trace, phaseRank e = 0 ∨ phaseRank e = 3 := by
  intro e he
  by_cases h1 : fm.selFail d
  · simp [syncStep, h1] at he
    subst he; simp [phaseRank]
  · by_cases h2 : fm.syncFail d <;> simp [syncStep, h1, h2] at he <;>
      rcases he with rfl | rfl <;> simp [phaseRank]

lemma fanoutPhase_rank (fm : FaultModel) (len : Nat) :
    ∀ e ∈ (fanoutPhase fm len).trace, phaseRank e = 0 ∨ phaseRank e = 2 := by
  intro e he
  obtain ⟨i, _, hi⟩ := mem_runSteps_trace he
  exact fanoutStep_rank fm i e hi

lemma syncPhase_rank (fm : FaultModel) :
    ∀ e ∈ (syncPhase fm).trace, phaseRank e = 0 ∨ phaseRank e = 3 := by
  intro e he
  obtain ⟨d, _, hd⟩ := mem_runSteps_trace he
  exact syncStep_rank fm d e hd

lemma issuePhase_rank (len t : Nat) :
    ∀ e ∈ (issuePhase len t).trace, phaseRank e = 4 := by
  intro e he
  obtain ⟨i, _, hi⟩ := mem_runSteps_trace he
  simp [writeStep] at hi
  subst hi; simp [phaseRank]

lemma syncPhase_complete {fm : FaultModel} (h : (syncPhase fm).err = none) :
    ∀ d, d < NUM_GPUS → Event.deviceSync d ∈ (syncPhase fm).trace := by
  intro d hd
  have hall := runSteps_err_none.mp h
  have hdmem : d ∈ List.range NUM_GPUS := List.mem_range.mpr hd
  have hstep := hall d hdmem
  have htr : Event.deviceSync d ∈ (syncStep fm d).trace := by
    by_cases h1 : fm.selFail d
    · simp [syncStep, h1] at hstep
    · by_cases h2 : fm.syncFail d
      · simp [syncStep, h1, h2] at hstep
      · simp [syncStep, h1, h2]
  unfold syncPhase
  rw [runSteps_trace_of_none hall]
  exact List.mem_flatten.mpr ⟨(syncStep fm d).trace, List.mem_map_of_mem _ hdmem, htr⟩

/-- Structure of the trace of one write round: header, then fan-out events,
then a block of synchronization events, then a block of remote writes; the
remote-write block is nonempty only if the synchronization barrier
completed on all four devices. -/
lemma writeRound_trace_decomp (fm : FaultModel) (len t : Nat) :
    ∃ B C : List Event,
      roundTrace fm len t
          = (roundHeader t).trace ++ ((fanoutPhase fm len).trace ++ (B ++ C))
        ∧ (∀ e ∈ B, phaseRank e = 0 ∨ phaseRank e = 3)
        ∧ (∀ e ∈ C, phaseRank e = 4)
        ∧ (C ≠ [] → ∀ d, d < NUM_GPUS → Event.deviceSync d ∈ B) := by
  unfold roundTrace writeRound
  rw [andThen_trace_of_none (by rfl)]
  cases hf : (fanoutPhase fm len).err with
  | some e =>
    refine ⟨[], [], ?_, by simp, by simp, by simp⟩
    rw [andThen_trace_of_some hf]
    simp
  | none =>
    rw [andThen_trace_of_none hf]
    cases hs : (syncPhase fm).err with
    | some e =>
      refine ⟨(syncPhase fm).trace, [], ?_, syncPhase_rank fm, by simp, by simp⟩
      rw [andThen_trace_of_some hs]
      simp
    | none =>
      refine ⟨(syncPhase fm).trace, (issuePhase len t).trace, ?_,
        syncPhase_rank fm, issuePhase_rank len t, ?_⟩
      · rw [andThen_trace_of_none hs]
      · intro _ d hd
        exact syncPhase_complete hs d hd

/-! Position lemmas: locating events of a given phase rank inside an
append decomposition of a trace. -/

lemma rank_pos_ge {T X Y : List Event} (hT : T = X ++ Y) {r : Nat}
    (hX : ∀ e ∈ X, phaseRank e ≤ r) {j : Nat} (hj : j < T.length)
    (hr : r < phaseRank (T.get ⟨j, hj⟩)) : X.length ≤ j := by
  subst hT
  by_contra hlt
  push_neg at hlt
  have hg : ((X ++ Y).get ⟨j, hj⟩) = X.get ⟨j, hlt⟩ := by
    simp only [List.get_eq_getElem]
    exact List.getElem_append_left hlt
  have hmem : X.get ⟨j, hlt⟩ ∈ X := List.get_mem X j hlt
  have := hX _ hmem
  rw [hg] at hr
  omega

lemma rank_pos_lt {T X Y : List Event} (hT : T = X ++ Y) {p : Nat}
    (hY : ∀ e ∈ Y, phaseRank e ≠ p) {i : Nat} (hi : i < T.length)
    (hp : phaseRank (T.get ⟨i, hi⟩) = p) : i < X.length := by
  subst hT
  by_contra hge
  push_neg at hge
  have hlen : i - X.length < Y.length := by
    have h2 := hi
    rw [List.length_append] at h2
    omega
  have hg : ((X ++ Y).get ⟨i, hi⟩) = Y.get ⟨i - X.length, hlen⟩ := by
    simp only [List.get_eq_getElem]
    exact List.getElem_append_right hge
  have hmem : Y.get ⟨i - X.length, hlen⟩ ∈ Y := List.get_mem Y _ hlen
  exact hY _ hmem (by rw [← hg]; exact hp)

lemma mem_pos {T X Y : List Event} (hT : T = X ++ Y) {e : Event} (he : e ∈ X) :
    ∃ i, ∃ hi : i < T.length, i < X.length ∧ T.get ⟨i, hi⟩ = e := by
  subst hT
  obtain ⟨i, hiX, hgi⟩ := List.mem_iff_getElem.mp he
  have hlen : i < (X ++ Y).length := by
    rw [List.length_append]
    omega
  refine ⟨i, hlen, hiX, ?_⟩
  simp only [List.get_eq_getElem]
  rw [List.getElem_append_left hiX]
  exact hgi

/-- C4 (confirmed): within any write-mode round, the four phases occur
strictly in order quota-wait (rank 1), fan-out copies (rank 2), device
synchronization (rank 3), remote-write issuance (rank 4): any event of a
lower nonzero phase rank precedes any event of a higher rank, and before
any remote write the trace contains a completed synchronization of every
one of the four devices. -/
theorem c4_phase_order (fm : FaultModel) (len t : Nat) :
    (∀ i j (hi : i < (roundTrace fm len t).length) (hj : j < (roundTrace fm len t).length),
        1 ≤ phaseRank ((roundTrace fm len t).get ⟨i, hi⟩) →
        phaseRank ((roundTrace fm len t).get ⟨i, hi⟩)
          < phaseRank ((roundTrace fm len t).get ⟨j, hj⟩) →
        i < j)
      ∧ (∀ j (hj : j < (roundTrace fm len t).length),
          isWrite ((roundTrace fm len t).get ⟨j, hj⟩) = true →
          ∀ d, d < NUM_GPUS → ∃ i, ∃ hi : i < (roundTrace fm len t).length,
            i < j ∧ (roundTrace fm len t).get ⟨i, hi⟩ = Event.deviceSync d) := by
  obtain ⟨B, C, hT, hB, hC, hdev⟩ := writeRound_trace_decomp fm len t
  have hT2 : roundTrace fm len t
      = ((roundHeader t).trace ++ (fanoutPhase fm len).trace) ++ (B ++ C) := by
    rw [hT, List.append_assoc]
  have hT3 : roundTrace fm len t
      = (((roundHeader t).trace ++ (fanoutPhase fm len).trace) ++ B) ++ C := by
    rw [hT]
    simp [List.append_assoc]
  have hXP : ∀ e ∈ (roundHeader t).trace, phaseRank e ≤ 1 := roundHeader_rank t
  have hXPA : ∀ e ∈ (roundHeader t).trace ++ (fanoutPhase fm len).trace, phaseRank e ≤ 2 := by
    intro e he
    rcases List.mem_append.mp he with h | h
    · have := hXP e h; omega
    · rcases fanoutPhase_rank fm len e h with h2 | h2 <;> omega
  have hXPAB : ∀ e ∈ ((roundHeader t).trace ++ (fanoutPhase fm len).trace) ++ B,
      phaseRank e ≤ 3 := by
    intro e he
    rcases List.mem_append.mp he with h | h
    · have := hXPA e h; omega
    · rcases hB e h with h2 | h2 <;> omega
  have hY1 : ∀ e ∈ (fanoutPhase fm len).trace ++ (B ++ C), phaseRank e ≠ 1 := by
    intro e he
    rcases List.mem_append.mp he with h | h
    · rcases fanoutPhase_rank fm len e h with h2 | h2 <;> omega
    · rcases List.mem_append.mp h with h3 | h3
      · rcases hB e h3 with h2 | h2 <;> omega
      · have := hC e h3; omega
  have hY2 : ∀ e ∈ B ++ C, phaseRank e ≠ 2 := by
    intro e he
    rcases List.mem_append.mp he with h | h
    · rcases hB e h with h2 | h2 <;> omega
    · have := hC e h; omega
  have hY3 : ∀ e ∈ C, phaseRank e ≠ 3 := by
    intro e he
    have := hC e he; omega
  constructor
  · intro i j hi hj h1 hlt
    have hj4 := phaseRank_le_four ((roundTrace fm len t).get ⟨j, hj⟩)
    have hcases : phaseRank ((roundTrace fm len t).get ⟨i, hi⟩) = 1
        ∨ phaseRank ((roundTrace fm len t).get ⟨i, hi⟩) = 2
        ∨ phaseRank ((roundTrace fm len t).get ⟨i, hi⟩) = 3 := by omega
    rcases hcases with h | h | h
    · have hlti : i < (roundHeader t).trace.length := rank_pos_lt hT hY1 hi h
      have hgej : (roundHeader t).trace.length ≤ j := rank_pos_ge hT hXP hj (by omega)
      omega
    · have hlti : i < ((roundHeader t).trace ++ (fanoutPhase fm len).trace).length :=
        rank_pos_lt hT2 hY2 hi h
      have hgej : ((roundHeader t).trace ++ (fanoutPhase fm len).trace).length ≤ j :=
        rank_pos_ge hT2 hXPA hj (by omega)
      omega
    · have hlti : i < (((roundHeader t).trace ++ (fanoutPhase fm len).trace) ++ B).length :=
        rank_pos_lt hT3 hY3 hi h
      have hgej : (((roundHeader t).trace ++ (fanoutPhase fm len).trace) ++ B).length ≤ j :=
        rank_pos_ge hT3 hXPAB hj (by omega)
      omega
  · intro j hj hw d hd
    have hr4 : phaseRank ((roundTrace fm len t).get ⟨j, hj⟩) = 4 :=
      (isWrite_iff_rank _).mp hw
    have hjge : (((roundHeader t).trace ++ (fanoutPhase fm len).trace) ++ B).length ≤ j :=
      rank_pos_ge hT3 hXPAB hj (by omega)
    have hlenT : (roundTrace fm len t).length
        = (((roundHeader t).trace ++ (fanoutPhase fm len).trace) ++ B).length + C.length := by
      rw [hT3, List.length_append]
    have hCne : C ≠ [] := by
      intro hCnil
      rw [hCnil] at hlenT
      simp only [List.length_nil, Nat.add_zero] at hlenT
      omega
    have hsync : Event.deviceSync d ∈ B := hdev hCne d hd
    have hmemX : Event.deviceSync d
        ∈ ((roundHeader t).trace ++ (fanoutPhase fm len).trace) ++ B :=
      List.mem_append.mpr (Or.inr hsync)
    obtain ⟨i, hi, hiX, hgi⟩ := mem_pos hT3 hmemX
    exact ⟨i, hi, by omega, hgi⟩

lemma andThen_assoc (a b c : BenchResult) :
    (a.andThen b).andThen c = a.andThen (b.andThen c) := by
  cases a with
  | mk ta ea =>
    cases b with
    | mk tb eb =>
      cases ea <;> cases eb <;> simp [BenchResult.andThen, List.append_assoc]

lemma runSteps_append {f : Nat → BenchResult} :
    ∀ l1 l2 : List Nat, runSteps f (l1 ++ l2) = (runSteps f l1).andThen (runSteps f l2) := by
  intro l1
  induction l1 with
  | nil => intro l2; rfl
  | cons i rest ih =>
    intro l2
    show (f i).andThen (runSteps f (rest ++ l2))
      = ((f i).andThen (runSteps f rest)).andThen (runSteps f l2)
    rw [ih, andThen_assoc]

/-! Lemmas about the fault-free write round, used for the copy-failure and
round-count claims. -/

lemma fanoutPhase_err_none {fm : FaultModel} (len : Nat)
    (h1 : ∀ d, fm.selFail d = false) : (fanoutPhase fm len).err = none :=
  runSteps_err_none.mpr (fun i _ => by simp [fanoutStep, h1])

lemma syncPhase_err_none {fm : FaultModel}
    (h1 : ∀ d, fm.selFail d = false) (h2 : ∀ d, fm.syncFail d = false) :
    (syncPhase fm).err = none :=
  runSteps_err_none.mpr (fun d _ => by simp [syncStep, h1, h2])

lemma issuePhase_err_none (len t : Nat) : (issuePhase len t).err = none :=
  runSteps_err_none.mpr (fun _ _ => rfl)

lemma writeRound_err_none {fm : FaultModel} (len t : Nat)
    (h1 : ∀ d, fm.selFail d = false) (h2 : ∀ d, fm.syncFail d = false) :
    (writeRound fm len t).err = none := by
  unfold writeRound
  rw [andThen_err_of_none rfl, andThen_err_of_none (fanoutPhase_err_none len h1),
    andThen_err_of_none (syncPhase_err_none h1 h2)]
  exact issuePhase_err_none len t

lemma writeRound_trace_no_fault {fm : FaultModel} (len t : Nat)
    (h1 : ∀ d, fm.selFail d = false) (h2 : ∀ d, fm.syncFail d = false) :
    (writeRound fm len t).trace
      = (roundHeader t).trace
          ++ ((fanoutPhase fm len).trace ++ ((syncPhase fm).trace ++ (issuePhase len t).trace)) := by
  unfold writeRound
  rw [andThen_trace_of_none rfl, andThen_trace_of_none (fanoutPhase_err_none len h1),
    andThen_trace_of_none (syncPhase_err_none h1 h2)]

lemma countP_isWrite_zero {L : List Event} (h : ∀ e ∈ L, phaseRank e ≠ 4) :
    L.countP isWrite = 0 := by
  rw [List.countP_eq_zero]
  intro e he hcon
  exact h e he ((isWrite_iff_rank e).mp hcon)

lemma issuePhase_countP (len : Nat) : ∀ t, (issuePhase len t).trace.countP isWrite = t := by
  intro t
  induction t with
  | zero => rfl
  | succ n ih =>
    unfold issuePhase at ih ⊢
    rw [List.range_succ, runSteps_append,
      andThen_trace_of_none (runSteps_err_none.mpr (fun i _ => rfl)),
      List.countP_append, ih]
    simp [runSteps, writeStep, BenchResult.andThen, isWrite, List.countP_cons]

/-- C5 (confirmed): if hipSetDevice fails for a device actually selected
during the fan-out phase, the write round aborts with the device-selection
error (the throw at line 248 propagates) and no remote write whatsoever is
issued for that round. -/
theorem c5_selection_failure_aborts (fm : FaultModel) (len t : Nat)
    (h : ∃ i, i < len / CHUNK_BYTES ∧ fm.selFail (i % NUM_GPUS) = true) :
    (writeRound fm len t).err = some BenchError.deviceSelectionError
      ∧ (writeRound fm len t).trace.countP isWrite = 0 := by
  have hfanerr : ∃ e, (fanoutPhase fm len).err = some e := by
    cases herr : (fanoutPhase fm len).err with
    | some e => exact ⟨e, rfl⟩
    | none =>
      obtain ⟨i, hilt, hisel⟩ := h
      have h2 := runSteps_err_none.mp herr i (List.mem_range.mpr hilt)
      simp [fanoutStep, hisel] at h2
  obtain ⟨e, he⟩ := hfanerr
  have hedev : e = BenchError.deviceSelectionError := by
    obtain ⟨i, _, hie⟩ := runSteps_err_mem he
    by_cases hs : fm.selFail (i % NUM_GPUS) <;> simp [fanoutStep, hs] at hie
    exact hie.symm
  subst hedev
  constructor
  · unfold writeRound
    rw [andThen_err_of_none rfl]
    exact andThen_err_of_some he
  · unfold writeRound
    rw [andThen_trace_of_none rfl, andThen_trace_of_some he, List.countP_append]
    have hh : (roundHeader t).trace.countP isWrite = 0 := by
      simp [roundHeader, isWrite, List.countP_cons]
    have hf : (fanoutPhase fm len).trace.countP isWrite = 0 := by
      apply countP_isWrite_zero
      intro ev hev
      rcases fanoutPhase_rank fm len ev hev with h2 | h2 <;> omega
    omega

/-- C5 witness: device 2 made to fail; a 16384-byte region selects devices
0, 1, 2, 3 during fan-out, so the round aborts with the selection error
and issues no remote write. -/
theorem c5_selection_failure_aborts_witness :
    (∃ i, i < 16384 / CHUNK_BYTES ∧ faultSel2.selFail (i % NUM_GPUS) = true)
      ∧ ((writeRound faultSel2 16384 1).err = some BenchError.deviceSelectionError
        ∧ (writeRound faultSel2 16384 1).trace.countP isWrite = 0) :=
  ⟨⟨2, by decide, by decide⟩,
    c5_selection_failure_aborts faultSel2 16384 1 ⟨2, by decide, by decide⟩⟩

/-- C6 (amended): a failed enqueue of an asynchronous chunk copy is
silently ignored — the source discards the hipMemcpyAsync return status —
so no error is raised and the round still issues all of its remote
writes. -/
theorem c6_copy_failure_ignored (fm : FaultModel) (len t : Nat)
    (h1 : ∀ d, fm.selFail d = false) (h2 : ∀ d, fm.syncFail d = false) :
    (writeRound fm len t).err = none
      ∧ (writeRound fm len t).trace.countP isWrite = t := by
  refine ⟨writeRound_err_none len t h1 h2, ?_⟩
  rw [writeRound_trace_no_fault len t h1 h2]
  rw [List.countP_append, List.countP_append, List.countP_append]
  have hh : (roundHeader t).trace.countP isWrite = 0 := by
    simp [roundHeader, isWrite, List.countP_cons]
  have hf : (fanoutPhase fm len).trace.countP isWrite = 0 := by
    apply countP_isWrite_zero
    intro ev hev
    rcases fanoutPhase_rank fm len ev hev with h3 | h3 <;> omega
  have hs : (syncPhase fm).trace.countP isWrite = 0 := by
    apply countP_isWrite_zero
    intro ev hev
    rcases syncPhase_rank fm ev hev with h3 | h3 <;> omega
  have hi := issuePhase_countP len t
  omega

/-- C6 witness: with every copy enqueue failing but devices selectable and
synchronizable, the round raises nothing and issues its 3 remote writes. -/
theorem c6_copy_failure_ignored_witness :
    (∀ d, faultCopyAll.selFail d = false)
      ∧ (∀ d, faultCopyAll.syncFail d = false)
      ∧ ((writeRound faultCopyAll 8192 3).err = none
        ∧ (writeRound faultCopyAll 8192 3).trace.countP isWrite = 3) :=
  ⟨fun _ => rfl, fun _ => rfl,
    c6_copy_failure_ignored faultCopyAll 8192 3 (fun _ => rfl) (fun _ => rfl)⟩

/-- C6 counterexample: every copy enqueue fails (the copyAsync events carry
a false enqueue status), yet the round reports no error and proceeds to
issue both remote writes — the claimed propagated CopyError does not
exist. -/
theorem c6_copy_failure_ignored_cex :
    (writeRound faultCopyAll 8192 2).err = none
      ∧ (writeRound faultCopyAll 8192 2).trace.countP isWrite = 2
      ∧ Event.copyAsync (chunkOf 0) false ∈ (writeRound faultCopyAll 8192 2).trace := by
  decide

/-- C4 witness: in the fault-free round over 4096 bytes with quota 1, the
device-0 synchronization (index 6, rank 3) precedes the remote write
(index 13, rank 4). -/
theorem c4_phase_order_witness :
    6 < (roundTrace noFault 4096 1).length
      ∧ 13 < (roundTrace noFault 4096 1).length
      ∧ 1 ≤ phaseRank ((roundTrace noFault 4096 1).get ⟨6, by decide⟩)
      ∧ phaseRank ((roundTrace noFault 4096 1).get ⟨6, by decide⟩)
          < phaseRank ((roundTrace noFault 4096 1).get ⟨13, by decide⟩)
      ∧ 6 < 13 :=
  ⟨by decide, by decide, by decide, by decide,
    (c4_phase_order noFault 4096 1).1 6 13 (by decide) (by decide) (by decide) (by decide)⟩

/-! Round counting: each round performs exactly one clearCompleted, and no
other loop of the program emits one. -/

lemma countRounds_runSteps_zero {f : Nat → BenchResult} {l : List Nat}
    (h : ∀ i ∈ l, ∀ e ∈ (f i).trace, isClear e = false) :
    countRounds (runSteps f l).trace = 0 := by
  unfold countRounds
  rw [List.countP_eq_zero]
  intro e he
  obtain ⟨i, hi, hie⟩ := mem_runSteps_trace he
  simp [h i hi e hie]

lemma fanoutStep_not_clear (fm : FaultModel) (i : Nat) :
    ∀ e ∈ (fanoutStep fm i).trace, isClear e = false := by
  intro e he
  by_cases h : fm.selFail (i % NUM_GPUS) <;> simp [fanoutStep, h] at he
  · subst he; rfl
  · rcases he with rfl | rfl <;> rfl

lemma syncStep_not_clear (fm : FaultModel) (d : Nat) :
    ∀ e ∈ (syncStep fm d).trace, isClear e = false := by
  intro e he
  by_cases h1 : fm.selFail d
  · simp [syncStep, h1] at he
    subst he; rfl
  · by_cases h2 : fm.syncFail d <;> simp [syncStep, h1, h2] at he <;>
      rcases he with rfl | rfl <;> rfl

lemma setupStep_not_clear (fm : FaultModel) (d : Nat) :
    ∀ e ∈ (setupStep fm d).trace, isClear e = false := by
  intro e he
  by_cases h1 : fm.selFail d
  · simp [setupStep, h1] at he
    subst he; rfl
  · by_cases h2 : fm.streamFail d
    · simp [setupStep, h1, h2] at he
      rcases he with rfl | rfl <;> rfl
    · by_cases h3 : fm.eventFail d <;> simp [setupStep, h1, h2, h3] at he <;>
        rcases he with rfl | rfl | rfl <;> rfl

lemma destroyStep_not_clear (d : Nat) :
    ∀ e ∈ (destroyStep d).trace, isClear e = false := by
  intro e he
  simp [destroyStep] at he
  rcases he with rfl | rfl <;> rfl

lemma writeStep_not_clear (len i : Nat) :
    ∀ e ∈ (writeStep len i).trace, isClear e = false := by
  intro e he
  simp [writeStep] at he
  subst he; rfl

lemma benchRound_countRounds {fm : FaultModel} (len t : Nat) (op : Bool)
    (h1 : ∀ d, fm.selFail d = false) (h2 : ∀ d, fm.syncFail d = false) :
    countRounds (benchRound fm len t op).trace = 1 := by
  cases op with
  | false => rfl
  | true =>
    show countRounds (writeRound fm len t).trace = 1
    unfold countRounds
    rw [writeRound_trace_no_fault len t h1 h2]
    rw [List.countP_append, List.countP_append, List.countP_append]
    have hh : (roundHeader t).trace.countP isClear = 1 := by
      simp [roundHeader, isClear, List.countP_cons]
    have hf : countRounds (fanoutPhase fm len).trace = 0 :=
      countRounds_runSteps_zero (fun i _ => fanoutStep_not_clear fm i)
    have hs : countRounds (syncPhase fm).trace = 0 :=
      countRounds_runSteps_zero (fun d _ => syncStep_not_clear fm d)
    have hi : countRounds (issuePhase len t).trace = 0 :=
      countRounds_runSteps_zero (fun i _ => writeStep_not_clear len i)
    unfold countRounds at hf hs hi
    omega

/-- C7 (amended): under fault-free operation, the run_bench invocation made
by the sweep loop for each size executes exactly n_runs + 10 rounds — main
(line 391) passes n_runs + 10, not the n_runs given by --runs. -/
theorem c7_rounds_count (len nLat nRuns : Nat) (op : Bool) :
    countRounds (run_bench noFault len nLat (nRuns + 10) op).trace = nRuns + 10 := by
  have hno1 : ∀ d, noFault.selFail d = false := fun _ => rfl
  have hno2 : ∀ d, noFault.syncFail d = false := fun _ => rfl
  have hsetup : (runSteps (setupStep noFault) (List.range NUM_GPUS)).err = none :=
    runSteps_err_none.mpr (fun d _ => by simp [setupStep, noFault])
  have hround : ∀ i : Nat, (benchRound noFault len nLat op).err = none := by
    intro i
    cases op with
    | false => rfl
    | true => exact writeRound_err_none len nLat hno1 hno2
  have hrounds : (runSteps (fun _ => benchRound noFault len nLat op)
      (List.range (nRuns + 10))).err = none :=
    runSteps_err_none.mpr (fun i _ => hround i)
  unfold run_bench
  rw [andThen_trace_of_none hsetup, andThen_trace_of_none hrounds]
  unfold countRounds
  rw [List.countP_append, List.countP_append]
  have h1 : countRounds (runSteps (setupStep noFault) (List.range NUM_GPUS)).trace = 0 :=
    countRounds_runSteps_zero (fun d _ => setupStep_not_clear noFault d)
  have h2 : countRounds (runSteps destroyStep (List.range NUM_GPUS)).trace = 0 :=
    countRounds_runSteps_zero (fun d _ => destroyStep_not_clear d)
  have h3 : (runSteps (fun _ => benchRound noFault len nLat op)
      (List.range (nRuns + 10))).trace.countP isClear = nRuns + 10 := by
    rw [runSteps_trace_of_none (fun i _ => hround i)]
    rw [List.countP_flatten, List.map_map]
    have hone : ∀ i : Nat,
        (List.countP isClear ∘ fun _ => (benchRound noFault len nLat op).trace) i = 1 := by
      intro i
      have := @benchRound_countRounds noFault len nLat op hno1 hno2
      unfold countRounds at this
      simpa using this
    rw [List.map_congr_left (fun i _ => hone i)]
    simp [List.map_const', List.sum_replicate]
  unfold countRounds at h1 h2
  omega

set_option maxRecDepth 100000 in
/-- C7 counterexample: with --runs = 5 the sweep call for size 64 carries
repetition count 15, and the fault-free execution of that call runs 15
rounds, not the 5 the claim states. -/
theorem c7_rounds_cex :
    (mainCallsGo 3 5 64 8 64).getD [] = [⟨64, 3, 15⟩]
      ∧ countRounds (run_bench noFault 64 3 15 true).trace = 15
      ∧ ¬ (countRounds (run_bench noFault 64 3 15 true).trace = 5) := by
  decide

/-- C9 (confirmed): with min_size > max_size the sweep loop body never
runs: zero benchmark rounds execute, no exception is raised, the process
still frees the device buffers, performs the final peer synchronization
and returns EXIT_SUCCESS (exit code 0). -/
theorem c9_inverted_range (fm : FaultModel) (nLat nRuns mn mx : Nat) (op : Bool) (fuel : Nat)
    (h1 : mx < mn) (h2 : 1 ≤ fuel) (h3 : ∀ d, d < NUM_GPUS → fm.selFail d = false) :
    mainRun fm nLat nRuns mn mx op fuel
        = some ⟨[Event.setDevice 0, Event.hipFree 0, Event.setDevice 1, Event.hipFree 1,
            Event.setDevice 2, Event.hipFree 2, Event.setDevice 3, Event.hipFree 3,
            Event.connSync IS_CLIENT], some 0⟩
      ∧ countRounds [Event.setDevice 0, Event.hipFree 0, Event.setDevice 1, Event.hipFree 1,
            Event.setDevice 2, Event.hipFree 2, Event.setDevice 3, Event.hipFree 3,
            Event.connSync IS_CLIENT] = 0 := by
  have e0 : fm.selFail 0 = false := h3 0 (by decide)
  have e1 : fm.selFail 1 = false := h3 1 (by decide)
  have e2 : fm.selFail 2 = false := h3 2 (by decide)
  have e3 : fm.selFail 3 = false := h3 3 (by decide)
  have hfin : finalPhase fm
      = ⟨[Event.setDevice 0, Event.hipFree 0, Event.setDevice 1, Event.hipFree 1,
          Event.setDevice 2, Event.hipFree 2, Event.setDevice 3, Event.hipFree 3,
          Event.connSync IS_CLIENT], none⟩ := by
    have hr : List.range NUM_GPUS = [0, 1, 2, 3] := rfl
    simp [finalPhase, hr, runSteps, freeStep, e0, e1, e2, e3, BenchResult.andThen]
  cases fuel with
  | zero => omega
  | succ f =>
    have hnotle : ¬ mn ≤ mx := by omega
    have hloop : mainLoop fm nLat nRuns mx op (f + 1) mn = some ⟨[], none⟩ := by
      simp [mainLoop, hnotle]
    refine ⟨?_, by decide⟩
    unfold mainRun
    rw [hloop, hfin]
    simp

/-- C9 witness: min_size = 1024, max_size = 512 under a fault-free runtime:
no rounds, final synchronization reached, exit code 0. -/
theorem c9_inverted_range_witness :
    512 < 1024 ∧ 1 ≤ 1 ∧ (∀ d, d < NUM_GPUS → noFault.selFail d = false)
      ∧ (mainRun noFault 7 3 1024 512 false 1
          = some ⟨[Event.setDevice 0, Event.hipFree 0, Event.setDevice 1, Event.hipFree 1,
              Event.setDevice 2, Event.hipFree 2, Event.setDevice 3, Event.hipFree 3,
              Event.connSync IS_CLIENT], some 0⟩
        ∧ countRounds [Event.setDevice 0, Event.hipFree 0, Event.setDevice 1, Event.hipFree 1,
              Event.setDevice 2, Event.hipFree 2, Event.setDevice 3, Event.hipFree 3,
              Event.connSync IS_CLIENT] = 0) :=
  ⟨by decide, by decide, fun _ _ => rfl,
    c9_inverted_range noFault 7 3 1024 512 false 1 (by decide) (by decide) (fun _ _ => rfl)⟩
